import Mathlib

/-!
Verification of the anime recommendation backend (`api/index.py` and
`src/services/mal_service.py`) against its natural-language specification.

The Python code is shallowly embedded: catalog items become a typed record,
the external Jikan catalog becomes a record of pure functions, floats become
rationals, and the request pipeline of each Flask route becomes a pure
function from a catalog and the request parameters to the list of formatted
response items.
-/

set_option maxRecDepth 10000

/- Batteries marks the `Rat` arithmetic irreducible; re-allow unfolding so
that concrete runs of the embedded pipeline evaluate inside `decide`. -/
attribute [local semireducible] Rat.add Rat.mul Rat.inv Rat.sub Rat.ofScientific

namespace AnimeRec

/-! ### String helpers (Python `needle in haystack` substring test) -/

/-- Does the second list of characters start with the first one? -/
def leadChars : List Char → List Char → Bool
  | [], _ => true
  | _ :: _, [] => false
  | a :: as, b :: bs => a == b && leadChars as bs

/-- Does the character list contain the needle as a contiguous run? -/
def subChars (needle : List Char) : List Char → Bool
  | [] => needle.isEmpty
  | h :: t => leadChars needle (h :: t) || subChars needle t

/-- Python's `needle in hay` for strings: contiguous substring test. -/
def strHas (hay needle : String) : Bool :=
  subChars needle.toList hay.toList

/-- `s.lower()`, character by character (the markers are ASCII). -/
def lowerStr (s : String) : String :=
  ⟨s.data.map Char.toLower⟩

/-- `s[:n]`: Python slices strings by characters. -/
def takeStr (s : String) (n : Nat) : String :=
  ⟨s.data.take n⟩

/-- `sep.join(parts)`. -/
def joinWith (sep : String) : List String → String
  | [] => ""
  | [x] => x
  | x :: xs => x ++ sep ++ joinWith sep xs

/-! ### Data model

`Anime` is the typed form of the loosely-typed Jikan catalog item dict, with
the fields the engine reads.  Absent numeric fields use the same sentinel the
Python code obtains from `.get` (`score` 0, `popularity` defaulted at use
sites), genre and studio entries are reduced to their `name` strings. -/

structure Anime where
  mal_id : Nat
  title : String
  score : ℚ
  genres : List String
  studios : List String
  rating : String
  synopsis : String
  members : Nat
  popularity : Option Nat
  year : Option Int
  deriving DecidableEq

/-- The external catalog (Jikan API) as pure query functions: the three
operations `SimpleMALService` exposes. -/
structure Catalog where
  getById : Nat → Option Anime
  search : String → Nat → List Anime
  getTop : Nat → List Anime

/-! ### Content-safety classifier (`SimpleRecommendationEngine.is_nsfw_content`) -/

def nsfwRatings : List String := ["r+", "rx", "hentai", "18+", "mature"]

def nsfwGenres : List String := ["hentai", "ecchi", "yaoi", "yuri"]

def nsfwTitleMarkers : List String := ["hentai", "ecchi", "18+", "adult"]

/-- The three-part NSFW test on the raw field values: rating markers, genre
markers against the space-joined lowered genre names, title markers. -/
def isNsfwFields (rating title : String) (genres : List String) : Bool :=
  if nsfwRatings.any (fun m => strHas (lowerStr rating) m) then true
  else
    let joined := joinWith " " (genres.map lowerStr)
    if nsfwGenres.any (fun m => strHas joined m) then true
    else if nsfwTitleMarkers.any (fun m => strHas (lowerStr title) m) then true
    else false

/-- `is_nsfw_content` on a well-typed item (the non-raising path of the
Python function). -/
def is_nsfw_content (a : Anime) : Bool :=
  isNsfwFields a.rating a.title a.genres

/-! ### Synopsis truncation

`anime.get("synopsis", "")[:200] + "..." if anime.get("synopsis") else ""`:
the ternary condition only tests truthiness of the synopsis, so the ellipsis
is appended to every non-empty synopsis. -/

def truncSynopsis (s : String) : String :=
  if s ≠ "" then takeStr s 200 ++ "..." else ""

/-- What the specification describes: ellipsis only when actually truncated.
Used solely to compare against `truncSynopsis`. -/
def truncSynopsisSpec (s : String) : String :=
  if 200 < s.length then takeStr s 200 ++ "..." else s

/-! ### Rounding (`round(x, 3)`): banker's rounding to three decimals. -/

/-- Round-half-to-even on rationals, Python's `round` to integer. -/
def rhe (q : ℚ) : ℤ :=
  let f := ⌊q⌋
  let r := q - f
  if r < 1/2 then f
  else if 1/2 < r then f + 1
  else if f % 2 = 0 then f else f + 1

def round3 (q : ℚ) : ℚ := (rhe (q * 1000) : ℚ) / 1000

theorem rhe_nonneg {q : ℚ} (h : 0 ≤ q) : 0 ≤ rhe q := by
  unfold rhe
  have hf : (0:ℤ) ≤ ⌊q⌋ := Int.le_floor.mpr (by exact_mod_cast h)
  dsimp only
  split
  · exact hf
  · split
    · omega
    · split <;> omega

theorem rhe_le_of_le {q : ℚ} {c : ℤ} (h : q ≤ c) : rhe q ≤ c := by
  unfold rhe
  have hf : ⌊q⌋ ≤ c := by
    have := Int.floor_le_floor h
    simpa using this
  dsimp only
  split
  · exact hf
  · rename_i h1
    push_neg at h1
    have hlt : ⌊q⌋ < c := by
      by_contra hcon
      push_neg at hcon
      have hqc : ⌊q⌋ = c := le_antisymm hf hcon
      have hfloor : (⌊q⌋ : ℚ) ≤ q := Int.floor_le q
      have hle : q - ⌊q⌋ ≤ 0 := by
        rw [hqc]
        linarith
      linarith
    split
    · omega
    · split <;> omega

theorem round3_nonneg {q : ℚ} (h : 0 ≤ q) : 0 ≤ round3 q := by
  unfold round3
  have : (0:ℤ) ≤ rhe (q * 1000) := rhe_nonneg (by positivity)
  positivity

theorem round3_le {q : ℚ} {c : ℤ} (h : q * 1000 ≤ c) : round3 q ≤ (c : ℚ) / 1000 := by
  unfold round3
  have h1 : rhe (q * 1000) ≤ c := rhe_le_of_le h
  have : ((rhe (q * 1000) : ℚ)) ≤ (c : ℚ) := by exact_mod_cast h1
  linarith

/-! ### Loosely-typed view of `is_nsfw_content` (exception behaviour)

The Python function reads `anime.get("rating", "").lower()` and the analogous
title and per-genre `name` accesses.  A missing key yields the `.get` default
(the empty string), but a key present with value `None` makes `.lower()`
raise `AttributeError`; the surrounding `try`/`except` then returns `False`.
`PyStrVal` models those three shapes of a string-valued field. -/

inductive PyStrVal where
  | absent
  | pyNone
  | str (s : String)
  deriving DecidableEq

/-- `value.lower()` after a `.get(key, "")` access: the default lowers to the
empty string, `None` raises, a string is lowered. -/
def lowerVal : PyStrVal → Except Unit String
  | .absent => .ok ""
  | .pyNone => .error ()
  | .str s => .ok (lowerStr s)

def lowerVals : List PyStrVal → Except Unit (List String)
  | [] => .ok []
  | v :: vs =>
    match lowerVal v with
    | .error e => .error e
    | .ok s =>
      match lowerVals vs with
      | .error e => .error e
      | .ok ss => .ok (s :: ss)

/-- A catalog item as the classifier actually receives it: the three field
groups it inspects, each possibly missing or `None`. -/
structure LooseAnime where
  rating : PyStrVal
  genreNames : List PyStrVal
  title : PyStrVal
  deriving DecidableEq

/-- The body of `is_nsfw_content` without the `try`/`except`: an exception in
any of the three field inspections aborts the computation. -/
def is_nsfw_checked (la : LooseAnime) : Except Unit Bool :=
  match lowerVal la.rating with
  | .error e => .error e
  | .ok rating =>
    if nsfwRatings.any (fun m => strHas rating m) then .ok true
    else
      match lowerVals la.genreNames with
      | .error e => .error e
      | .ok genres =>
        let joined := joinWith " " genres
        if nsfwGenres.any (fun m => strHas joined m) then .ok true
        else
          match lowerVal la.title with
          | .error e => .error e
          | .ok title =>
            if nsfwTitleMarkers.any (fun m => strHas title m) then .ok true
            else .ok false

/-- The full Python function: the `except Exception` handler turns any
internal error into `False`. -/
def is_nsfw_loose (la : LooseAnime) : Bool :=
  match is_nsfw_checked la with
  | .ok b => b
  | .error _ => false

/-! ### Taste profile (`get_recommendations`, step 1)

Genre/studio frequency maps are Python dicts with insertion order; they are
embedded as association lists with distinct keys in insertion order. -/

/-- `d[k] = d.get(k, 0) + 1` on an insertion-ordered counter dict: the first
(unique) entry with the key is incremented, a new key is appended. -/
def bump : List (String × Nat) → String → List (String × Nat)
  | [], k => [(k, 1)]
  | p :: ps, k => if p.1 == k then (p.1, p.2 + 1) :: ps else p :: bump ps k

def countNames (names : List String) (m : List (String × Nat)) : List (String × Nat) :=
  names.foldl (fun acc n => if n ≠ "" then bump acc n else acc) m

structure Profile where
  genres : List (String × Nat)
  studios : List (String × Nat)
  avgScore : ℚ

/-- Step 1 of `get_recommendations`: resolve each seed id through the cached
catalog lookup, count genre and studio names (skipping falsy names), and
average the positive seed scores, defaulting to `7.0`. -/
def buildProfile (cat : Catalog) (userList : List Nat) : Profile :=
  let datas := userList.filterMap cat.getById
  let g := datas.foldl (fun m a => countNames a.genres m) []
  let s := datas.foldl (fun m a => countNames a.studios m) []
  let scores := (datas.map Anime.score).filter (fun q => 0 < q)
  let avg := if scores = [] then 7 else scores.sum / scores.length
  ⟨g, s, avg⟩

/-- Stable descending insertion by count: the embedding of
`sorted(items, key=count, reverse=True)` (Python's sort is stable). -/
def insPair (x : String × Nat) : List (String × Nat) → List (String × Nat)
  | [] => [x]
  | y :: ys => if y.2 ≤ x.2 then x :: y :: ys else y :: insPair x ys

def sortPairsDesc : List (String × Nat) → List (String × Nat)
  | [] => []
  | x :: xs => insPair x (sortPairsDesc xs)

/-- `[s for s, c in studios.items() if c >= 2]`. -/
def preferredStudios (p : Profile) : List String :=
  (p.studios.filter (fun q => 2 ≤ q.2)).map Prod.fst

/-! ### Search query construction (`get_recommendations`, step 2) -/

def buildQueries (topGenres : List (String × Nat)) (preferred : List String)
    (avg : ℚ) : List String :=
  let genreQs :=
    match topGenres with
    | [] => []
    | (g1, _) :: rest =>
      ("best " ++ g1 ++ " anime") ::
        (match rest with
         | [] => []
         | (g2, _) :: _ => [g1 ++ " " ++ g2])
  let studioQs := (preferred.take 1).map (fun s => s ++ " anime")
  let scoreQ := [if 8 ≤ avg then "highly rated anime" else "popular anime"]
  (genreQs ++ studioQs ++ scoreQ).take 4

/-! ### Relevance scoring (`calculate_relevance_score`) -/

/-- The profile-map entries whose key occurs among the candidate's genre
names; since dict keys are unique, summing their counts is the Python
`sum(profile['genres'][g] for g in genre_overlap)`. -/
def overlapEntries (prof : Profile) (a : Anime) : List (String × Nat) :=
  prof.genres.filter (fun p => a.genres.contains p.1)

/-- The 60%-weight genre sub-score: frequency-weighted overlap, zero when no
genre is shared. -/
def genrePart (prof : Profile) (a : Anime) : ℚ :=
  if overlapEntries prof a ≠ [] then
    ((((overlapEntries prof a).map Prod.snd).sum : ℚ) /
        (((prof.genres.map Prod.snd).sum : Nat) : ℚ)) * (6/10)
  else 0

/-- The 25%-weight score-compatibility sub-score (step function of the
absolute difference to the profile average). -/
def scorePart (prof : Profile) (a : Anime) : ℚ :=
  if 0 < a.score then
    if |a.score - prof.avgScore| ≤ 1/2 then 1/4
    else if |a.score - prof.avgScore| ≤ 1 then 1/5
    else if |a.score - prof.avgScore| ≤ 3/2 then 3/20
    else 1/20
  else 0

/-- The 15%-weight quality bonus tiers. -/
def qualityPart (a : Anime) : ℚ :=
  if 8 ≤ a.score then 3/20
  else if 15/2 ≤ a.score then 1/10
  else if 7 ≤ a.score then 1/20
  else 0

def calculate_relevance_score (prof : Profile) (a : Anime) : ℚ :=
  genrePart prof a + scorePart prof a + qualityPart a

/-! ### The unused comprehensive scorer (`calculate_similarity_score`)

Defined in the source but never called by `get_recommendations`; it is the
function the genre-bonus tiers of the spec refer to. -/

/-- `d[k]` on a unique-key counter dict (callers guard key presence). -/
def lookupNat : List (String × Nat) → String → Nat
  | [], _ => 0
  | p :: ps, k => if p.1 == k then p.2 else lookupNat ps k

def calculate_similarity_score (a : Anime) (user_genres : List (String × Nat))
    (_user_scores : List ℚ) (_user_popularity_scores : List ℚ)
    (user_studios : List (String × Nat)) (avg_user_score : ℚ)
    (avg_user_popularity : ℚ) : ℚ :=
  let animeGenres := (a.genres.filter (fun s => s ≠ "")).dedup
  let totalUserGenreCount : ℚ :=
    if user_genres ≠ [] then (((user_genres.map Prod.snd).sum : Nat) : ℚ) else 1
  let overlapGenres := animeGenres.filter (fun g => user_genres.any (fun p => p.1 == g))
  let genreOverlapCount := overlapGenres.length
  let base :=
    (overlapGenres.map (fun g => ((lookupNat user_genres g : ℚ) / totalUserGenreCount))).sum
  let genreScore : ℚ :=
    if 0 < genreOverlapCount then
      if 2 ≤ genreOverlapCount then base + 3/10
      else if 3 ≤ genreOverlapCount then base + 1/2
      else base
    else 0
  let s1 := min genreScore 1 * (6/10)
  let s2 : ℚ :=
    if a.score ≠ 0 ∧ 0 < a.score ∧ 0 < avg_user_score then
      if |a.score - avg_user_score| ≤ 1/2 then 15/100
      else if |a.score - avg_user_score| ≤ 1 then 12/100
      else if |a.score - avg_user_score| ≤ 3/2 then 9/100
      else if |a.score - avg_user_score| ≤ 2 then 6/100
      else if 7 ≤ a.score ∧ 0 < genreOverlapCount then 3/100
      else 0
    else 0
  let pop := a.popularity.getD 999999
  let s3 : ℚ :=
    if pop ≠ 0 ∧ 0 < pop then
      let popScore : ℚ := 1 / (pop : ℚ)
      if 0 < avg_user_popularity then
        min (popScore / avg_user_popularity) (avg_user_popularity / popScore) * (10/100)
      else
        if pop ≤ 1000 then 8/100
        else if pop ≤ 5000 then 6/100
        else if pop ≤ 10000 then 4/100
        else 0
    else 0
  let animeStudios := (a.studios.filter (fun s => s ≠ "")).dedup
  let s4 : ℚ :=
    match animeStudios.find? (fun s => user_studios.any (fun p => p.1 == s)) with
    | some s =>
      (if user_studios ≠ [] then
          (lookupNat user_studios s : ℚ) / ((user_studios.length : Nat) : ℚ)
        else 0) * (10/100)
    | none => 0
  let s5 : ℚ :=
    (if 50000 < a.members then 2/100 else 0) +
    (if a.score ≠ 0 ∧ 15/2 ≤ a.score then 2/100 else 0) +
    (if pop ≠ 0 ∧ 1000 < pop ∧ pop ≤ 10000 ∧ a.score ≠ 0 ∧ 7 ≤ a.score then 1/100 else 0)
  min (s1 + s2 + s3 + s4 + s5) 1

/-- The genre-bonus tiering as the specification words it: only the highest
applicable tier, `+0.5` from three overlapping genres up.  Used solely to
compare with the `genreScore` branch of `calculate_similarity_score`. -/
def genreBonusSpec (overlapCount : Nat) : ℚ :=
  if 3 ≤ overlapCount then 1/2
  else if 2 ≤ overlapCount then 3/10
  else 0

/-! ### Candidate gathering (`get_recommendations`, step 3) -/

structure Cand where
  anime : Anime
  relevance : ℚ
  query : String
  deriving DecidableEq

/-- The step-3 admission test: truthy id, unseen, truthy positive score, not
NSFW.  No minimum on the relevance score is applied. -/
def admitB (seen : List Nat) (a : Anime) : Bool :=
  a.mal_id != 0 && !(seen.contains a.mal_id) && decide (a.score ≠ 0)
    && decide (0 < a.score) && !(is_nsfw_content a)

/-- Process one query's search results: admitted items are appended to the
candidate pool with their relevance and provenance, and their id joins the
seen set. -/
def processResults (prof : Profile) (q : String) :
    List Anime → List Nat → List Cand → List Cand × List Nat
  | [], seen, acc => (acc, seen)
  | a :: rest, seen, acc =>
    if admitB seen a then
      processResults prof q rest (a.mal_id :: seen)
        (acc ++ [⟨a, calculate_relevance_score prof a, q⟩])
    else
      processResults prof q rest seen acc

def gatherLoop (cat : Catalog) (prof : Profile) :
    List String → List Nat → List Cand → List Cand
  | [], _, acc => acc
  | q :: qs, seen, acc =>
    let p := processResults prof q (cat.search q 10) seen acc
    gatherLoop cat prof qs p.2 p.1

/-- Steps 2–3 as one function: the deduplicated, filtered, scored candidate
pool for a seed list. -/
def gatherCandidates (cat : Catalog) (prof : Profile) (userList : List Nat) : List Cand :=
  let topGenres := sortPairsDesc prof.genres
  let queries := buildQueries topGenres (preferredStudios prof) prof.avgScore
  gatherLoop cat prof queries userList []

/-! ### Ranking and diversity selection (`get_recommendations`, steps 4–5) -/

/-- Stable descending insertion by relevance
(`sort(key=relevance, reverse=True)`). -/
def insCand (c : Cand) : List Cand → List Cand
  | [] => [c]
  | d :: ds => if d.relevance ≤ c.relevance then c :: d :: ds else d :: insCand c ds

def sortCands : List Cand → List Cand
  | [] => []
  | c :: cs => insCand c (sortCands cs)

/-- First candidate genre that is a profile key, else the first genre, else
`None` (a genre-less item really gets the Python `None` as its key). -/
def primaryGenre (profGenres : List (String × Nat)) (a : Anime) : Option String :=
  match a.genres.find? (fun g => profGenres.any (fun p => p.1 == g)) with
  | some g => some g
  | none => a.genres.head?

/-- `genre_counts.get(primary_genre, 0)`. -/
def countOf : List (Option String × Nat) → Option String → Nat
  | [], _ => 0
  | p :: ps, k => if p.1 == k then p.2 else countOf ps k

/-- `genre_counts[primary_genre] = current_count + 1`. -/
def bumpOpt : List (Option String × Nat) → Option String → List (Option String × Nat)
  | [], k => [(k, 1)]
  | p :: ps, k => if p.1 == k then (p.1, p.2 + 1) :: ps else p :: bumpOpt ps k

/-- One formatted recommendation dict (the fields the claims mention). -/
structure Rec where
  mal_id : Nat
  title : String
  score : ℚ
  genres : List String
  similarity_score : ℚ
  synopsis : String
  rating : String
  studios : List String
  primary_genre : Option String
  deriving DecidableEq

def mkRec (preferred : List String) (pg : Option String) (c : Cand) : Rec :=
  let boost : ℚ :=
    if c.anime.studios.any (fun s => preferred.contains s) then 1/10 else 0
  { mal_id := c.anime.mal_id
    title := c.anime.title
    score := c.anime.score
    genres := c.anime.genres
    similarity_score := round3 (c.relevance + boost)
    synopsis := truncSynopsis c.anime.synopsis
    rating := c.anime.rating
    studios := c.anime.studios
    primary_genre := pg }

/-- Step 5: walk the ranked candidates, admitting at most three per primary
genre, stopping at `maxR` admitted; skipped candidates are never revisited. -/
def selectRecs (preferred : List String) (profGenres : List (String × Nat)) :
    List Cand → Nat → List (Option String × Nat) → Nat → List Rec
  | [], _, _, _ => []
  | c :: rest, maxR, gcounts, cur =>
    if maxR ≤ cur then []
    else
      let pg := primaryGenre profGenres c.anime
      if countOf gcounts pg < 3 then
        mkRec preferred pg c ::
          selectRecs preferred profGenres rest maxR (bumpOpt gcounts pg) (cur + 1)
      else
        selectRecs preferred profGenres rest maxR gcounts cur

/-- `SimpleRecommendationEngine.get_recommendations`. -/
def get_recommendations (cat : Catalog) (userList : List Nat) (maxR : Nat) : List Rec :=
  let prof := buildProfile cat userList
  let cands := gatherCandidates cat prof userList
  selectRecs (preferredStudios prof) prof.genres (sortCands cands) maxR [] 0

/-! ### Route layer (`/api/recommendations`, `/api/search`, `/api/trending`) -/

/-- The fallback recommendation built from a top-anime item (fixed similarity
`0.5`; the Python dict carries no `primary_genre` key). -/
def mkFallbackRec (a : Anime) : Rec :=
  { mal_id := a.mal_id
    title := a.title
    score := a.score
    genres := a.genres
    similarity_score := 1/2
    synopsis := truncSynopsis a.synopsis
    rating := a.rating
    studios := a.studios
    primary_genre := none }

/-- The `/api/recommendations` fallback branch: top anime, truncated to the
requested count, seed ids and NSFW items dropped, truncated again. -/
def fallbackRecs (cat : Catalog) (userList : List Nat) (maxR : Nat) : List Rec :=
  ((((cat.getTop maxR).take maxR).filter
      (fun a => !(userList.contains a.mal_id) && !(is_nsfw_content a))).map
    mkFallbackRec).take maxR

/-- The `/api/recommendations` route after input validation: the engine's
list, or the fallback list when the engine found nothing. -/
def routeRecommendations (cat : Catalog) (userList : List Nat) (maxR : Nat) : List Rec :=
  let recs := get_recommendations cat userList maxR
  if recs.isEmpty then fallbackRecs cat userList maxR else recs

/-- One formatted search / trending result item. -/
structure SItem where
  mal_id : Nat
  title : String
  score : ℚ
  genres : List String
  synopsis : String
  rating : String
  studios : List String
  deriving DecidableEq

def mkSItem (a : Anime) : SItem :=
  { mal_id := a.mal_id
    title := a.title
    score := a.score
    genres := a.genres
    synopsis := truncSynopsis a.synopsis
    rating := a.rating
    studios := a.studios }

/-- The `/api/search` route: the limit is clamped to 25 by the route and
again by `search_anime`; NSFW results are skipped before formatting. -/
def routeSearch (cat : Catalog) (q : String) (lim : Nat) : List SItem :=
  let results := cat.search q (min (min lim 25) 25)
  (results.filter (fun a => !(is_nsfw_content a))).map mkSItem

/-- The `/api/trending` route. -/
def routeTrending (cat : Catalog) (lim : Nat) : List SItem :=
  let results := cat.getTop (min (min lim 25) 25)
  (results.filter (fun a => !(is_nsfw_content a))).map mkSItem

/-! ### Transport outcomes of the catalog client

`SimpleMALService._make_request` wraps the HTTP exchange in `try`/`except`;
`ReqResult` enumerates the outcomes the handler distinguishes: a 2xx response
with parsed data, a non-2xx status (`raise_for_status` throws), or a network
error raised by `requests.get` itself. -/

inductive ReqResult (α : Type) where
  | ok (val : α)
  | httpError (code : Nat)
  | netError
  deriving DecidableEq

def isTransportError {α : Type} : ReqResult α → Bool
  | .ok _ => false
  | .httpError _ => true
  | .netError => true

/-- `SimpleMALService.search_anime`: on any error `_make_request` returns
`{"data": []}`, whose `data` field is the empty list. -/
def simple_search_anime (r : ReqResult (List Anime)) : List Anime :=
  match r with
  | .ok l => l
  | .httpError _ => []
  | .netError => []

/-- `SimpleMALService.get_top_anime`: same error shape as the search. -/
def simple_get_top_anime (r : ReqResult (List Anime)) : List Anime :=
  match r with
  | .ok l => l
  | .httpError _ => []
  | .netError => []

/-- `SimpleRecommendationEngine.get_anime_details` through
`SimpleMALService.get_anime_by_id`: an error yields `{"data": []}`, whose
falsy `data` field makes the lookup return `None`. -/
def simple_get_anime_details (r : ReqResult Anime) : Option Anime :=
  match r with
  | .ok a => some a
  | .httpError _ => none
  | .netError => none

/-- A raw Jikan item as `MALService._format_anime_data` reads it (the
`src/services/mal_service.py` variant keeps themes and demographics apart). -/
structure RawAnime where
  mal_id : Nat
  title : String
  score : ℚ
  genres : List String
  themes : List String
  demographics : List String
  studios : List String
  synopsis : String
  rating : String
  members : Nat
  popularity : Option Nat
  year : Option Int
  deriving DecidableEq

structure FormattedAnime where
  mal_id : Nat
  title : String
  score : ℚ
  genres : List String
  studios : List String
  synopsis : String
  rating : String
  members : Nat
  popularity : Option Nat
  year : Option Int
  deriving DecidableEq

/-- `MALService._format_anime_data`: genres, themes and demographics are
merged into one genre list. -/
def format_anime_data (r : RawAnime) : FormattedAnime :=
  { mal_id := r.mal_id
    title := r.title
    score := r.score
    genres := r.genres ++ r.themes ++ r.demographics
    studios := r.studios
    synopsis := r.synopsis
    rating := r.rating
    members := r.members
    popularity := r.popularity
    year := r.year }

/-- `MALService.get_anime_by_id`: a `RequestException` (network error or the
`raise_for_status` of a non-2xx response) is caught and `None` returned; a
2xx response without a truthy `data` field also falls through to `None`. -/
def mal_get_anime_by_id (r : ReqResult (Option RawAnime)) : Option FormattedAnime :=
  match r with
  | .ok (some raw) => some (format_anime_data raw)
  | .ok none => none
  | .httpError _ => none
  | .netError => none

/-! ### Rate limiter (`SimpleMALService._make_request`)

Wall-clock time is modelled as a rational.  A call arrives `wait` after the
previous call returned, holds the connection for `dur`, and either completes
(`ok`, in which case `last_request_time` is set to the completion time) or
raises inside `requests.get` (`ok = false`, leaving the timestamp untouched —
the assignment sits after the `get` call). -/

structure CallEvent where
  wait : ℚ
  dur : ℚ
  ok : Bool
  deriving DecidableEq

/-- One `_make_request` call from state `(now, last_request_time)`: returns
the new state and the time at which the HTTP request is issued.  The sleep
branch reproduces `time.sleep(request_delay - time_since_last)`. -/
def limiterStep (delay : ℚ) (st : ℚ × ℚ) (e : CallEvent) : (ℚ × ℚ) × ℚ :=
  let now := st.1 + e.wait
  let elapsed := now - st.2
  let issue := if elapsed < delay then now + (delay - elapsed) else now
  let done := issue + e.dur
  ((done, if e.ok then done else st.2), issue)

/-- The issue times of a sequence of calls. -/
def issueTimes (delay : ℚ) (st : ℚ × ℚ) : List CallEvent → List ℚ
  | [] => []
  | e :: es =>
    let p := limiterStep delay st e
    p.2 :: issueTimes delay p.1 es

/-- Every adjacent pair of the list is at least `d` apart. -/
def gapsAtLeast (d : ℚ) : List ℚ → Bool
  | a :: b :: t => decide (d ≤ b - a) && gapsAtLeast d (b :: t)
  | _ => true

/-! ### Concrete catalogs used as witnesses and counterexamples -/

def seedAnime1 : Anime :=
  ⟨1, "Seed One", 8, ["Action"], ["Bones"], "PG-13", "", 0, none, none⟩

def seedAnime2 : Anime :=
  ⟨2, "Seed Two", 8, ["Action"], ["Bones"], "PG-13", "", 0, none, none⟩

/-- A safe candidate fully matching the `catW` seeds: full genre overlap,
exact score match, rated 8, preferred studio. -/
def candX : Anime :=
  ⟨3, "Safe Pick", 8, ["Action"], ["Bones"], "PG-13", "A fine show.", 0, none, none⟩

/-- Catalog for the two-seed profile: seeds 1 and 2 share genre and studio,
the genre query returns the perfectly matching `candX`. -/
def catW : Catalog where
  getById := fun i => if i = 1 then some seedAnime1 else if i = 2 then some seedAnime2 else none
  search := fun q _ => if q = "best Action anime" then [candX] else []
  getTop := fun _ => []

def candW : Cand := ⟨candX, 1, "best Action anime"⟩

def recW : Rec := mkRec ["Bones"] (some "Action") candW

/-- Anime `i` of the single-genre flood used against the diversity pass. -/
def floodAnime (i : Nat) : Anime :=
  ⟨i, "Pick", 8, ["Action"], [], "PG-13", "", 0, none, none⟩

/-- Catalog where one seed yields five qualifying candidates that all share
the same primary genre. -/
def cat6 : Catalog where
  getById := fun i => if i = 1 then some (floodAnime 1) else none
  search := fun q _ =>
    if q = "best Action anime" then
      [floodAnime 2, floodAnime 3, floodAnime 4, floodAnime 5, floodAnime 6]
    else []
  getTop := fun _ => []

/-- Profile with genre counts `A: 1`, `B: 9` (total 10) and average 8. -/
def profile4 : Profile := ⟨[("A", 1), ("B", 9)], [], 8⟩

/-- Full genre overlap but score 0: rejected by the admission test although
its relevance score is 3/5. -/
def cand4X : Anime := ⟨7, "No Score", 0, ["A", "B"], [], "", "", 0, none, none⟩

/-- Minimal genre overlap and far-off score: admitted although its relevance
score is only 11/100. -/
def cand4Y : Anime := ⟨8, "Weak Match", 5, ["A"], [], "", "", 0, none, none⟩

/-- Three of this item's genres overlap the `profile5` counts. -/
def anime5 : Anime := ⟨9, "Triple Overlap", 0, ["X", "Y", "Z"], [], "", "", 0, none, none⟩

def userGenres5 : List (String × Nat) := [("X", 1), ("Y", 1), ("Z", 1), ("W", 7)]

/-! ### Invariants of the candidate pool -/

/-- What the step-3 admission test guarantees about every pool entry,
relative to the seed list it started from. -/
def CandOK (u : List Nat) (prof : Profile) (c : Cand) : Prop :=
  c.anime.mal_id ≠ 0 ∧ c.anime.mal_id ∉ u ∧ 0 < c.anime.score ∧
    is_nsfw_content c.anime = false ∧
    c.relevance = calculate_relevance_score prof c.anime

theorem admitB_spec {seen : List Nat} {a : Anime} (h : admitB seen a = true) :
    a.mal_id ≠ 0 ∧ a.mal_id ∉ seen ∧ 0 < a.score ∧ is_nsfw_content a = false := by
  simp only [admitB, Bool.and_eq_true, bne_iff_ne, ne_eq, Bool.not_eq_true',
    decide_eq_true_eq] at h
  refine ⟨h.1.1.1.1, ?_, h.1.2, h.2⟩
  have := h.1.1.1.2
  simpa using this

theorem processResults_sound (prof : Profile) (q : String) (u : List Nat) :
    ∀ (results : List Anime) (seen : List Nat) (acc : List Cand),
      (∀ i ∈ u, i ∈ seen) → (∀ c ∈ acc, CandOK u prof c) →
      (∀ c ∈ (processResults prof q results seen acc).1, CandOK u prof c) ∧
      (∀ i ∈ u, i ∈ (processResults prof q results seen acc).2) := by
  intro results
  induction results with
  | nil => intro seen acc hs ha; exact ⟨ha, hs⟩
  | cons a rest ih =>
    intro seen acc hs ha
    by_cases hadm : admitB seen a = true
    · rw [processResults, if_pos hadm]
      refine ih (a.mal_id :: seen) _ (fun i hi => List.mem_cons_of_mem _ (hs i hi)) ?_
      intro c hc
      rcases List.mem_append.mp hc with hc | hc
      · exact ha c hc
      · obtain ⟨h1, h2, h3, h4⟩ := admitB_spec hadm
        have hc' : c = ⟨a, calculate_relevance_score prof a, q⟩ := by simpa using hc
        subst hc'
        exact ⟨h1, fun hu => h2 (hs _ hu), h3, h4, rfl⟩
    · rw [processResults, if_neg hadm]
      exact ih seen acc hs ha

theorem gatherLoop_sound (cat : Catalog) (prof : Profile) (u : List Nat) :
    ∀ (qs : List String) (seen : List Nat) (acc : List Cand),
      (∀ i ∈ u, i ∈ seen) → (∀ c ∈ acc, CandOK u prof c) →
      ∀ c ∈ gatherLoop cat prof qs seen acc, CandOK u prof c := by
  intro qs
  induction qs with
  | nil => intro seen acc _ ha c hc; exact ha c hc
  | cons q rest ih =>
    intro seen acc hs ha
    have h := processResults_sound prof q u (cat.search q 10) seen acc hs ha
    exact ih _ _ h.2 h.1

theorem gatherCandidates_sound (cat : Catalog) (prof : Profile) (u : List Nat) :
    ∀ c ∈ gatherCandidates cat prof u, CandOK u prof c :=
  gatherLoop_sound cat prof u _ u [] (fun _ hi => hi) (fun _ hc => absurd hc (List.not_mem_nil _))

/-! ### Ranking and selection lemmas -/

theorem mem_insCand {x c : Cand} : ∀ {l : List Cand}, x ∈ insCand c l → x = c ∨ x ∈ l := by
  intro l
  induction l with
  | nil =>
    intro h
    rw [insCand] at h
    exact Or.inl (by simpa using h)
  | cons d ds ih =>
    intro h
    rw [insCand] at h
    split at h
    · rcases List.mem_cons.mp h with h | h
      · exact Or.inl h
      · exact Or.inr h
    · rcases List.mem_cons.mp h with h | h
      · exact Or.inr (by simp [h])
      · rcases ih h with h | h
        · exact Or.inl h
        · exact Or.inr (List.mem_cons_of_mem _ h)

theorem mem_sortCands {x : Cand} : ∀ {l : List Cand}, x ∈ sortCands l → x ∈ l := by
  intro l
  induction l with
  | nil => intro h; simp [sortCands] at h
  | cons c cs ih =>
    intro h
    rw [sortCands] at h
    rcases mem_insCand h with h | h
    · simp [h]
    · exact List.mem_cons_of_mem _ (ih h)

theorem selectRecs_mem (pref : List String) (pgen : List (String × Nat)) :
    ∀ (cands : List Cand) (maxR : Nat) (gcounts : List (Option String × Nat)) (cur : Nat)
      (r : Rec), r ∈ selectRecs pref pgen cands maxR gcounts cur →
      ∃ c ∈ cands, r = mkRec pref (primaryGenre pgen c.anime) c := by
  intro cands
  induction cands with
  | nil => intro _ _ _ r h; simp [selectRecs] at h
  | cons c rest ih =>
    intro maxR gcounts cur r h
    simp only [selectRecs] at h
    split at h
    · exact absurd h (List.not_mem_nil r)
    · split at h
      · rcases List.mem_cons.mp h with h | h
        · exact ⟨c, List.mem_cons_self c rest, h⟩
        · obtain ⟨c', hc', he⟩ := ih _ _ _ r h
          exact ⟨c', List.mem_cons_of_mem _ hc', he⟩
      · obtain ⟨c', hc', he⟩ := ih _ _ _ r h
        exact ⟨c', List.mem_cons_of_mem _ hc', he⟩

/-! ### Bounds of the relevance score -/

theorem sum_map_filter_le (p : (String × Nat) → Bool) (l : List (String × Nat)) :
    ((l.filter p).map Prod.snd).sum ≤ (l.map Prod.snd).sum := by
  induction l with
  | nil => simp
  | cons x xs ih =>
    by_cases hx : p x
    · simp [hx]
      omega
    · simp [hx]
      omega

theorem genrePart_nonneg (prof : Profile) (a : Anime) : 0 ≤ genrePart prof a := by
  unfold genrePart
  split
  · positivity
  · exact le_refl 0

theorem genrePart_le (prof : Profile) (a : Anime) : genrePart prof a ≤ 6/10 := by
  unfold genrePart
  split
  · rename_i hne
    set s := ((overlapEntries prof a).map Prod.snd).sum with hs
    set t := (prof.genres.map Prod.snd).sum with ht
    have hst : s ≤ t := sum_map_filter_le _ _
    have hdiv : ((s : ℚ) / (t : ℚ)) ≤ 1 := by
      rcases Nat.eq_zero_or_pos t with h0 | hpos
      · have : s = 0 := by omega
        simp [this, h0]
      · exact div_le_one_of_le₀ (by exact_mod_cast hst) (by positivity)
    have hdiv0 : 0 ≤ ((s : ℚ) / (t : ℚ)) := by positivity
    nlinarith
  · norm_num

theorem scorePart_nonneg (prof : Profile) (a : Anime) : 0 ≤ scorePart prof a := by
  unfold scorePart
  split_ifs <;> norm_num

theorem scorePart_le (prof : Profile) (a : Anime) : scorePart prof a ≤ 1/4 := by
  unfold scorePart
  split_ifs <;> norm_num

theorem qualityPart_nonneg (a : Anime) : 0 ≤ qualityPart a := by
  unfold qualityPart
  split_ifs <;> norm_num

theorem qualityPart_le (a : Anime) : qualityPart a ≤ 3/20 := by
  unfold qualityPart
  split_ifs <;> norm_num

theorem calcRel_nonneg (prof : Profile) (a : Anime) :
    0 ≤ calculate_relevance_score prof a := by
  unfold calculate_relevance_score
  have h1 := genrePart_nonneg prof a
  have h2 := scorePart_nonneg prof a
  have h3 := qualityPart_nonneg a
  linarith

theorem calcRel_le_one (prof : Profile) (a : Anime) :
    calculate_relevance_score prof a ≤ 1 := by
  unfold calculate_relevance_score
  have h1 := genrePart_le prof a
  have h2 := scorePart_le prof a
  have h3 := qualityPart_le a
  linarith

/-- The rounded final score of an engine recommendation (relevance plus
optional studio boost) stays within `[0, 11/10]`. -/
theorem mkRec_similarity_bounds (pref : List String) (pg : Option String)
    (c : Cand) (prof : Profile)
    (h : c.relevance = calculate_relevance_score prof c.anime) :
    0 ≤ (mkRec pref pg c).similarity_score ∧
      (mkRec pref pg c).similarity_score ≤ 11/10 := by
  have hrel0 : 0 ≤ c.relevance := h ▸ calcRel_nonneg prof c.anime
  have hrel1 : c.relevance ≤ 1 := h ▸ calcRel_le_one prof c.anime
  have hb : (0:ℚ) ≤ (if c.anime.studios.any (fun s => pref.contains s) then (1:ℚ)/10 else 0) ∧
      (if c.anime.studios.any (fun s => pref.contains s) then (1:ℚ)/10 else 0) ≤ 1/10 := by
    split_ifs <;> norm_num
  unfold mkRec
  dsimp only
  constructor
  · exact round3_nonneg (by linarith [hb.1])
  · have hle : (c.relevance +
        (if c.anime.studios.any (fun s => pref.contains s) then (1:ℚ)/10 else 0)) * 1000
        ≤ ((1100 : ℤ) : ℚ) := by
      push_cast
      nlinarith [hb.2]
    have := round3_le hle
    calc round3 (c.relevance + _) ≤ ((1100 : ℤ) : ℚ) / 1000 := this
    _ = 11/10 := by norm_num

/-! ### Selection length and per-genre cap -/

theorem selectRecs_length (pref : List String) (pgen : List (String × Nat)) :
    ∀ (cands : List Cand) (maxR : Nat) (gcounts : List (Option String × Nat)) (cur : Nat),
      (selectRecs pref pgen cands maxR gcounts cur).length ≤ maxR - cur := by
  intro cands
  induction cands with
  | nil => intro _ _ _; simp [selectRecs]
  | cons c rest ih =>
    intro maxR gcounts cur
    simp only [selectRecs]
    split
    · simp
    · rename_i hcur
      split
      · have := ih maxR (bumpOpt gcounts (primaryGenre pgen c.anime)) (cur + 1)
        simp only [List.length_cons]
        omega
      · have := ih maxR gcounts cur
        omega

theorem length_filter_cons_of_true {α : Type} (p : α → Bool) (x : α) (l : List α)
    (h : p x = true) : (List.filter p (x :: l)).length = (List.filter p l).length + 1 := by
  simp [List.filter_cons, h]

theorem filter_cons_of_false {α : Type} (p : α → Bool) (x : α) (l : List α)
    (h : p x = false) : List.filter p (x :: l) = List.filter p l := by
  simp [List.filter_cons, h]

theorem countOf_bumpOpt_same (m : List (Option String × Nat)) (k : Option String) :
    countOf (bumpOpt m k) k = countOf m k + 1 := by
  induction m with
  | nil => simp [bumpOpt, countOf]
  | cons p ps ih =>
    by_cases hp : p.1 == k
    · simp [bumpOpt, countOf, hp]
    · simp [bumpOpt, countOf, hp, ih]

theorem countOf_bumpOpt_other (m : List (Option String × Nat)) (k g : Option String)
    (hne : k ≠ g) : countOf (bumpOpt m k) g = countOf m g := by
  induction m with
  | nil =>
    have : (k == g) = false := by simpa using hne
    simp [bumpOpt, countOf, this]
  | cons p ps ih =>
    by_cases hp : p.1 == k
    · have hpk : p.1 = k := by simpa using hp
      have : (p.1 == g) = false := by simp [hpk]; exact hne
      simp [bumpOpt, countOf, hp, this]
    · simp [bumpOpt, countOf, hp, ih]

theorem selectRecs_genre_cap (pref : List String) (pgen : List (String × Nat)) :
    ∀ (cands : List Cand) (maxR : Nat) (gcounts : List (Option String × Nat)) (cur : Nat)
      (g : Option String),
      ((selectRecs pref pgen cands maxR gcounts cur).filter
          (fun r => r.primary_genre == g)).length ≤ 3 - countOf gcounts g := by
  intro cands
  induction cands with
  | nil => intro _ _ _ _; simp [selectRecs]
  | cons c rest ih =>
    intro maxR gcounts cur g
    simp only [selectRecs]
    split
    · simp
    · split
      · rename_i hcnt
        by_cases hg : primaryGenre pgen c.anime = g
        · subst hg
          have hpg : ((mkRec pref (primaryGenre pgen c.anime) c).primary_genre ==
              primaryGenre pgen c.anime) = true := by
            simp [mkRec]
          have hrec := ih maxR (bumpOpt gcounts (primaryGenre pgen c.anime)) (cur + 1)
            (primaryGenre pgen c.anime)
          rw [countOf_bumpOpt_same] at hrec
          rw [length_filter_cons_of_true
            (fun (r : Rec) => r.primary_genre == primaryGenre pgen c.anime) _ _ hpg]
          omega
        · have hpg : ((mkRec pref (primaryGenre pgen c.anime) c).primary_genre == g) = false := by
            simp [mkRec]
            exact hg
          have hrec := ih maxR (bumpOpt gcounts (primaryGenre pgen c.anime)) (cur + 1) g
          rw [countOf_bumpOpt_other _ _ _ hg] at hrec
          rw [filter_cons_of_false (fun (r : Rec) => r.primary_genre == g) _ _ hpg]
          exact hrec
      · exact ih maxR gcounts cur g

/-! ### Provenance of the route outputs -/

theorem get_recommendations_mem {cat : Catalog} {u : List Nat} {maxR : Nat} {r : Rec}
    (h : r ∈ get_recommendations cat u maxR) :
    ∃ c : Cand, CandOK u (buildProfile cat u) c ∧
      r = mkRec (preferredStudios (buildProfile cat u))
        (primaryGenre (buildProfile cat u).genres c.anime) c := by
  simp only [get_recommendations] at h
  obtain ⟨c, hc, he⟩ := selectRecs_mem _ _ _ _ _ _ r h
  exact ⟨c, gatherCandidates_sound _ _ _ c (mem_sortCands hc), he⟩

theorem fallbackRecs_mem {cat : Catalog} {u : List Nat} {maxR : Nat} {r : Rec}
    (h : r ∈ fallbackRecs cat u maxR) :
    ∃ a : Anime, r = mkFallbackRec a ∧ u.contains a.mal_id = false ∧
      is_nsfw_content a = false := by
  unfold fallbackRecs at h
  have h1 := (List.take_sublist _ _).subset h
  obtain ⟨a, ha, hr⟩ := List.mem_map.mp h1
  have hf := (List.mem_filter.mp ha).2
  simp only [Bool.and_eq_true, Bool.not_eq_true'] at hf
  exact ⟨a, hr.symm, hf.1, hf.2⟩

theorem routeRecommendations_mem {cat : Catalog} {u : List Nat} {maxR : Nat} {r : Rec}
    (h : r ∈ routeRecommendations cat u maxR) :
    (∃ c : Cand, CandOK u (buildProfile cat u) c ∧
      r = mkRec (preferredStudios (buildProfile cat u))
        (primaryGenre (buildProfile cat u).genres c.anime) c) ∨
    (∃ a : Anime, r = mkFallbackRec a ∧ u.contains a.mal_id = false ∧
      is_nsfw_content a = false) := by
  simp only [routeRecommendations] at h
  split at h
  · exact Or.inr (fallbackRecs_mem h)
  · exact Or.inl (get_recommendations_mem h)

theorem routeSearch_mem {cat : Catalog} {q : String} {lim : Nat} {s : SItem}
    (h : s ∈ routeSearch cat q lim) :
    ∃ a : Anime, s = mkSItem a ∧ is_nsfw_content a = false := by
  unfold routeSearch at h
  obtain ⟨a, ha, hs⟩ := List.mem_map.mp h
  have hf := (List.mem_filter.mp ha).2
  simp only [Bool.not_eq_true'] at hf
  exact ⟨a, hs.symm, hf⟩

theorem routeTrending_mem {cat : Catalog} {lim : Nat} {s : SItem}
    (h : s ∈ routeTrending cat lim) :
    ∃ a : Anime, s = mkSItem a ∧ is_nsfw_content a = false := by
  unfold routeTrending at h
  obtain ⟨a, ha, hs⟩ := List.mem_map.mp h
  have hf := (List.mem_filter.mp ha).2
  simp only [Bool.not_eq_true'] at hf
  exact ⟨a, hs.symm, hf⟩

/-! ### Source provenance: every output item carries the fields of one item
of an actual upstream catalog response. -/

theorem processResults_src (cat : Catalog) (prof : Profile) (q : String) :
    ∀ (results : List Anime) (seen : List Nat) (acc : List Cand),
      (∀ a ∈ results, a ∈ cat.search q 10) →
      (∀ c ∈ acc, c.anime ∈ cat.search c.query 10) →
      ∀ c ∈ (processResults prof q results seen acc).1,
        c.anime ∈ cat.search c.query 10 := by
  intro results
  induction results with
  | nil => intro seen acc _ ha c hc; exact ha c hc
  | cons a rest ih =>
    intro seen acc hr ha
    by_cases hadm : admitB seen a = true
    · rw [processResults, if_pos hadm]
      refine ih _ _ (fun x hx => hr x (List.mem_cons_of_mem a hx)) ?_
      intro c hc
      rcases List.mem_append.mp hc with hc | hc
      · exact ha c hc
      · have hc' : c = ⟨a, calculate_relevance_score prof a, q⟩ := by simpa using hc
        subst hc'
        exact hr a (List.mem_cons_self a rest)
    · rw [processResults, if_neg hadm]
      exact ih seen acc (fun x hx => hr x (List.mem_cons_of_mem a hx)) ha

theorem gatherLoop_src (cat : Catalog) (prof : Profile) :
    ∀ (qs : List String) (seen : List Nat) (acc : List Cand),
      (∀ c ∈ acc, c.anime ∈ cat.search c.query 10) →
      ∀ c ∈ gatherLoop cat prof qs seen acc, c.anime ∈ cat.search c.query 10 := by
  intro qs
  induction qs with
  | nil => intro seen acc ha c hc; exact ha c hc
  | cons q rest ih =>
    intro seen acc ha
    exact ih _ _ (processResults_src cat prof q (cat.search q 10) seen acc (fun _ h => h) ha)

theorem gatherCandidates_src (cat : Catalog) (prof : Profile) (u : List Nat) :
    ∀ c ∈ gatherCandidates cat prof u, c.anime ∈ cat.search c.query 10 :=
  gatherLoop_src cat prof _ u [] (fun _ hc => absurd hc (List.not_mem_nil _))

theorem get_recommendations_src {cat : Catalog} {u : List Nat} {maxR : Nat} {r : Rec}
    (h : r ∈ get_recommendations cat u maxR) :
    ∃ c : Cand, c.anime ∈ cat.search c.query 10 ∧
      r = mkRec (preferredStudios (buildProfile cat u))
        (primaryGenre (buildProfile cat u).genres c.anime) c := by
  simp only [get_recommendations] at h
  obtain ⟨c, hc, he⟩ := selectRecs_mem _ _ _ _ _ _ r h
  exact ⟨c, gatherCandidates_src _ _ _ c (mem_sortCands hc), he⟩

theorem fallbackRecs_src {cat : Catalog} {u : List Nat} {maxR : Nat} {r : Rec}
    (h : r ∈ fallbackRecs cat u maxR) :
    ∃ a ∈ cat.getTop maxR, r = mkFallbackRec a := by
  unfold fallbackRecs at h
  have h1 := (List.take_sublist _ _).subset h
  obtain ⟨a, ha, hr⟩ := List.mem_map.mp h1
  have h2 := (List.mem_filter.mp ha).1
  exact ⟨a, (List.take_sublist _ _).subset h2, hr.symm⟩

theorem routeSearch_src {cat : Catalog} {q : String} {lim : Nat} {s : SItem}
    (h : s ∈ routeSearch cat q lim) :
    ∃ a ∈ cat.search q (min (min lim 25) 25), s = mkSItem a := by
  unfold routeSearch at h
  obtain ⟨a, ha, hs⟩ := List.mem_map.mp h
  exact ⟨a, (List.mem_filter.mp ha).1, hs.symm⟩

theorem routeTrending_src {cat : Catalog} {lim : Nat} {s : SItem}
    (h : s ∈ routeTrending cat lim) :
    ∃ a ∈ cat.getTop (min (min lim 25) 25), s = mkSItem a := by
  unfold routeTrending at h
  obtain ⟨a, ha, hs⟩ := List.mem_map.mp h
  exact ⟨a, (List.mem_filter.mp ha).1, hs.symm⟩

/-- `truncSynopsis` written as the amended claim words it: the empty string
exactly for an empty source, otherwise the first 200 characters plus an
ellipsis. -/
theorem truncSynopsis_eq (s : String) :
    truncSynopsis s = (if s = "" then "" else takeStr s 200 ++ "...") := by
  by_cases h : s = "" <;> simp [truncSynopsis, h]

/-! ### Rate limiter lemmas -/

theorem limiterStep_issue_ge (delay : ℚ) (st : ℚ × ℚ) (e : CallEvent) :
    st.2 + delay ≤ (limiterStep delay st e).2 := by
  simp only [limiterStep]
  split_ifs with h
  · linarith
  · push_neg at h
    linarith

theorem limiterStep_fst_ok (delay : ℚ) (st : ℚ × ℚ) (e : CallEvent) (h : e.ok = true) :
    (limiterStep delay st e).1 =
      ((limiterStep delay st e).2 + e.dur, (limiterStep delay st e).2 + e.dur) := by
  simp [limiterStep, h]

theorem issueTimes_cons (delay : ℚ) (st : ℚ × ℚ) (e : CallEvent) (es : List CallEvent) :
    issueTimes delay st (e :: es) =
      (limiterStep delay st e).2 :: issueTimes delay (limiterStep delay st e).1 es := rfl

theorem gapsAtLeast_cons₂ (d a b : ℚ) (t : List ℚ) :
    gapsAtLeast d (a :: b :: t) = (decide (d ≤ b - a) && gapsAtLeast d (b :: t)) := rfl

/-- Every output synopsis is in the image of `truncSynopsis`, which is empty
or ends in an ellipsis. -/
theorem truncSynopsis_shape (s : String) :
    truncSynopsis s = "" ∨ ∃ t : String, truncSynopsis s = t ++ "..." := by
  unfold truncSynopsis
  split_ifs
  · exact Or.inr ⟨takeStr s 200, rfl⟩
  · exact Or.inl rfl

/-! ## The claims -/

/-- C1: every item returned by the recommendation route (engine or fallback
list), the search route and the trending route passes the three-part NSFW
test: no adult rating marker, no adult genre marker, no adult title marker,
each by case-insensitive substring match. -/
theorem outputs_never_nsfw :
    ∀ (cat : Catalog) (u : List Nat) (maxR : Nat) (q : String) (l1 l2 : Nat),
      (∀ r ∈ routeRecommendations cat u maxR,
        isNsfwFields r.rating r.title r.genres = false) ∧
      (∀ s ∈ routeSearch cat q l1, isNsfwFields s.rating s.title s.genres = false) ∧
      (∀ s ∈ routeTrending cat l2, isNsfwFields s.rating s.title s.genres = false) := by
  intro cat u maxR q l1 l2
  refine ⟨?_, ?_, ?_⟩
  · intro r hr
    rcases routeRecommendations_mem hr with ⟨c, hok, he⟩ | ⟨a, he, _, hn⟩
    · subst he
      exact hok.2.2.2.1
    · subst he
      exact hn
  · intro s hs
    obtain ⟨a, he, hn⟩ := routeSearch_mem hs
    subst he
    exact hn
  · intro s hs
    obtain ⟨a, he, hn⟩ := routeTrending_mem hs
    subst he
    exact hn

/-- C1 witness: the search route of the concrete catalog `catW` returns the
formatted `candX`, and that item passes the NSFW test. -/
theorem outputs_never_nsfw_witness :
    isNsfwFields (mkSItem candX).rating (mkSItem candX).title (mkSItem candX).genres = false :=
  (outputs_never_nsfw catW [1, 2] 10 "best Action anime" 10 10).2.1 (mkSItem candX) (by decide)

/-- C2: no identifier of the seed list ever appears among the `mal_id`
fields of the recommendation route's output, on the engine path as well as
on the fallback top-anime path. -/
theorem seeds_never_returned :
    ∀ (cat : Catalog) (u : List Nat) (maxR : Nat),
      ∀ r ∈ routeRecommendations cat u maxR, r.mal_id ∉ u := by
  intro cat u maxR r hr
  rcases routeRecommendations_mem hr with ⟨c, hok, he⟩ | ⟨a, he, hm, _⟩
  · subst he
    exact hok.2.1
  · subst he
    simpa using hm

/-- C2 witness: the concrete catalog `catW` with seeds `[1, 2]` returns
`recW`, whose id 3 is not a seed id. -/
theorem seeds_never_returned_witness : recW.mal_id ∉ [1, 2] :=
  seeds_never_returned catW [1, 2] 10 recW (by decide)

/-- C3 (amended): every rounded `similarity_score` of the recommendation
route lies in `[0, 11/10]`: the relevance score is bounded by 1 and the
preferred-studio boost adds up to `1/10` on top, with no clamping. -/
theorem similarity_bounds :
    ∀ (cat : Catalog) (u : List Nat) (maxR : Nat),
      ∀ r ∈ routeRecommendations cat u maxR,
        0 ≤ r.similarity_score ∧ r.similarity_score ≤ 11/10 := by
  intro cat u maxR r hr
  rcases routeRecommendations_mem hr with ⟨c, hok, he⟩ | ⟨a, he, _, _⟩
  · subst he
    exact mkRec_similarity_bounds _ _ _ _ hok.2.2.2.2
  · subst he
    constructor <;> norm_num [mkFallbackRec]

/-- C3 amended witness: the bounds applied to the concrete output `recW`. -/
theorem similarity_bounds_witness :
    0 ≤ recW.similarity_score ∧ recW.similarity_score ≤ 11/10 :=
  similarity_bounds catW [1, 2] 10 recW (by decide)

/-- C3 counterexample: with seeds 1 and 2 of `catW` (shared studio, genre
and rating), the returned item carries rounded similarity `11/10 > 1`, so
the score is not clamped to `[0, 1]`. -/
theorem similarity_above_one :
    ∃ r ∈ routeRecommendations catW [1, 2] 10, 1 < r.similarity_score := by
  refine ⟨recW, by decide, by decide⟩

/-- C4 (amended): admission into the scored candidate pool is exactly the
basic filter — truthy id, not a seed, truthy positive catalog score, not
NSFW; the relevance score is computed and recorded but no minimum relevance
threshold (asymmetric or otherwise) is applied. -/
theorem admission_is_basic_filter :
    ∀ (cat : Catalog) (u : List Nat),
      ∀ c ∈ gatherCandidates cat (buildProfile cat u) u,
        c.anime.mal_id ≠ 0 ∧ c.anime.mal_id ∉ u ∧ 0 < c.anime.score ∧
          is_nsfw_content c.anime = false ∧
          c.relevance = calculate_relevance_score (buildProfile cat u) c.anime :=
  fun cat u => gatherCandidates_sound cat (buildProfile cat u) u

/-- C4 amended witness: the concrete pool of `catW`. -/
theorem admission_is_basic_filter_witness :
    candW.anime.mal_id ≠ 0 ∧ candW.anime.mal_id ∉ [1, 2] ∧ (0:ℚ) < candW.anime.score ∧
      is_nsfw_content candW.anime = false ∧
      candW.relevance = calculate_relevance_score (buildProfile catW [1, 2]) candW.anime :=
  admission_is_basic_filter catW [1, 2] candW (by decide)

/-- C4 counterexample: no threshold pair (a lower one for genre-overlapping
candidates, a higher one for the rest) decides admission: `cand4X` (full
overlap, relevance `3/5`) is rejected while `cand4Y` (overlap, relevance
`11/100`) is admitted, so admission is not a relevance-minimum test. -/
theorem no_threshold_policy :
    ¬ ∃ tLow tHigh : ℚ, tLow < tHigh ∧
      ∀ a ∈ [cand4X, cand4Y],
        (admitB [] a = true ↔
          (if (overlapEntries profile4 a).isEmpty then tHigh else tLow) ≤
            calculate_relevance_score profile4 a) := by
  rintro ⟨t1, t2, _, h⟩
  have hX := h cand4X (by simp)
  have hY := h cand4Y (by simp)
  rw [show admitB [] cand4X = false from by decide,
    show (overlapEntries profile4 cand4X).isEmpty = false from by decide,
    show calculate_relevance_score profile4 cand4X = 3/5 from by decide] at hX
  rw [show admitB [] cand4Y = true from by decide,
    show (overlapEntries profile4 cand4Y).isEmpty = false from by decide,
    show calculate_relevance_score profile4 cand4Y = 11/100 from by decide] at hY
  simp only [Bool.false_eq_true, false_iff, Bool.if_false_left] at hX
  simp only [true_iff] at hY
  have hX' : ¬ t1 ≤ 3/5 := by simpa using hX
  have hY' : t1 ≤ 11/100 := by simpa using hY
  have : t1 ≤ 3/5 := le_trans hY' (by norm_num)
  exact hX' this

/-- C5: in `calculate_similarity_score` the `elif overlap >= 3` branch is
dead code, so a three-genre overlap earns the `+0.3` bonus of the `>= 2`
branch and never `+0.5`: the full score of `anime5` against `userGenres5`
(base `3/10`, all other sub-scores zero) is `(3/10 + 3/10) * 6/10 = 9/25`,
while the specified highest-tier bonus would give `(3/10 + 1/2) * 6/10 =
12/25`. -/
theorem genre_bonus_tier_eval :
    calculate_similarity_score anime5 userGenres5 [] [] [] 0 0 = 9/25 ∧
      min ((3/10 : ℚ) + genreBonusSpec 3) 1 * (6/10) = 12/25 := by
  constructor
  · decide
  · decide

/-- C6 (amended): the diversity pass admits at most three items per primary
genre and at most the requested count in total; skipped candidates are never
reconsidered (there is no fill pass), so the output can stay below the
requested size even when more qualifying candidates exist. -/
theorem diversity_cap :
    ∀ (cat : Catalog) (u : List Nat) (maxR : Nat) (g : Option String),
      ((get_recommendations cat u maxR).filter
          (fun (r : Rec) => r.primary_genre == g)).length ≤ 3 ∧
      (get_recommendations cat u maxR).length ≤ maxR := by
  intro cat u maxR g
  constructor
  · have h := selectRecs_genre_cap (preferredStudios (buildProfile cat u))
      (buildProfile cat u).genres
      (sortCands (gatherCandidates cat (buildProfile cat u) u)) maxR [] 0 g
    simpa [get_recommendations, countOf] using h
  · have h := selectRecs_length (preferredStudios (buildProfile cat u))
      (buildProfile cat u).genres
      (sortCands (gatherCandidates cat (buildProfile cat u) u)) maxR [] 0
    simpa [get_recommendations] using h

/-- C6 counterexample: `cat6` yields five qualifying candidates (more than
the requested four) that share one primary genre; the final list stops at
the three-per-genre cap and is never refilled, so only three items return. -/
theorem diversity_no_refill :
    (gatherCandidates cat6 (buildProfile cat6 [1]) [1]).length = 5 ∧
      (get_recommendations cat6 [1] 4).length = 3 := by
  constructor
  · decide
  · decide

/-- C7: each catalog-client operation maps a network error or a non-2xx
response to an empty result (empty list, or `None`) instead of propagating
the transport error: the three `SimpleMALService` operations and
`MALService.get_anime_by_id`. -/
theorem transport_error_empty :
    ∀ (r1 r2 : ReqResult (List Anime)) (r3 : ReqResult Anime)
      (r4 : ReqResult (Option RawAnime)),
      (isTransportError r1 = true → simple_search_anime r1 = []) ∧
      (isTransportError r2 = true → simple_get_top_anime r2 = []) ∧
      (isTransportError r3 = true → simple_get_anime_details r3 = none) ∧
      (isTransportError r4 = true → mal_get_anime_by_id r4 = none) := by
  intro r1 r2 r3 r4
  refine ⟨?_, ?_, ?_, ?_⟩
  · intro h
    cases r1 <;> first | rfl | simp [isTransportError] at h
  · intro h
    cases r2 <;> first | rfl | simp [isTransportError] at h
  · intro h
    cases r3 <;> first | rfl | simp [isTransportError] at h
  · intro h
    rcases r4 with v | c | _
    · simp [isTransportError] at h
    · rfl
    · rfl

/-- C7 witness: all four operations evaluated at a network error. -/
theorem transport_error_empty_witness :
    simple_search_anime (ReqResult.netError) = [] ∧
      simple_get_top_anime (ReqResult.netError) = [] ∧
      simple_get_anime_details (ReqResult.netError) = none ∧
      mal_get_anime_by_id (ReqResult.netError) = none :=
  ⟨(transport_error_empty .netError .netError .netError .netError).1 rfl,
   (transport_error_empty .netError .netError .netError .netError).2.1 rfl,
   (transport_error_empty .netError .netError .netError .netError).2.2.1 rfl,
   (transport_error_empty .netError .netError .netError .netError).2.2.2 rfl⟩

/-- C8 (amended): when every call completes without a `requests.get`
exception, at least the configured delay elapses between consecutive issue
times; the guarantee rests on `last_request_time` being updated, which a
raising call skips. -/
theorem rate_limited_gap :
    ∀ (delay : ℚ) (evs : List CallEvent) (st : ℚ × ℚ),
      (∀ e ∈ evs, e.ok = true ∧ 0 ≤ e.dur) →
      gapsAtLeast delay (issueTimes delay st evs) = true := by
  intro delay evs
  induction evs with
  | nil => intro st _; rfl
  | cons e es ih =>
    intro st h
    have he := h e (List.mem_cons_self e es)
    cases es with
    | nil => rfl
    | cons e2 es2 =>
      rw [issueTimes_cons, issueTimes_cons, gapsAtLeast_cons₂]
      have h2 := ih (limiterStep delay st e).1 (fun x hx => h x (List.mem_cons_of_mem e hx))
      rw [issueTimes_cons] at h2
      have hgap : delay ≤
          (limiterStep delay (limiterStep delay st e).1 e2).2 - (limiterStep delay st e).2 := by
        have h1 := limiterStep_issue_ge delay (limiterStep delay st e).1 e2
        have hX : (limiterStep delay st e).1.2 = (limiterStep delay st e).2 + e.dur := by
          rw [limiterStep_fst_ok delay st e he.1]
        rw [hX] at h1
        have := he.2
        linarith
      simp only [Bool.and_eq_true, decide_eq_true_eq]
      exact ⟨hgap, h2⟩

/-- C8 amended witness: a concrete all-successful trace respects the gap. -/
theorem rate_limited_gap_witness :
    gapsAtLeast 1 (issueTimes 1 (10, 0) [⟨0, 2, true⟩, ⟨3, 1, true⟩]) = true :=
  rate_limited_gap 1 [⟨0, 2, true⟩, ⟨3, 1, true⟩] (10, 0) (by decide)

/-- C8 counterexample: a request that raises inside `requests.get` leaves
`last_request_time` stale, so the following request can be issued with a gap
of 0 < 1 after it: with delay 1, the trace issues at times 10, 12 and 12. -/
theorem rate_limit_gap_violated :
    gapsAtLeast 1 (issueTimes 1 (10, 0)
      [⟨0, 0, true⟩, ⟨2, 0, false⟩, ⟨0, 0, true⟩]) = false := by
  decide

/-- C9 (amended): every returned item's synopsis is exactly the first 200
characters of its source catalog item's synopsis with an ellipsis appended
whenever that source synopsis is non-empty (even when nothing was
truncated), and the empty string exactly when the source synopsis is empty.
The source item is one member of an actual upstream catalog response (a
search response for engine recommendations, the query's search response for
the search route, the top listing for the fallback and trending routes),
and the returned item copies its other fields. -/
theorem synopsis_ellipsis :
    ∀ (cat : Catalog) (u : List Nat) (maxR : Nat) (q : String) (l1 l2 : Nat),
      (∀ r ∈ routeRecommendations cat u maxR,
        ∃ a : Anime,
          ((∃ qa : String, a ∈ cat.search qa 10) ∨ a ∈ cat.getTop maxR) ∧
          r.mal_id = a.mal_id ∧ r.title = a.title ∧
          r.synopsis = (if a.synopsis = "" then "" else takeStr a.synopsis 200 ++ "...")) ∧
      (∀ s ∈ routeSearch cat q l1,
        ∃ a ∈ cat.search q (min (min l1 25) 25), s = mkSItem a ∧
          s.synopsis = (if a.synopsis = "" then "" else takeStr a.synopsis 200 ++ "...")) ∧
      (∀ s ∈ routeTrending cat l2,
        ∃ a ∈ cat.getTop (min (min l2 25) 25), s = mkSItem a ∧
          s.synopsis = (if a.synopsis = "" then "" else takeStr a.synopsis 200 ++ "...")) := by
  intro cat u maxR q l1 l2
  refine ⟨?_, ?_, ?_⟩
  · intro r hr
    simp only [routeRecommendations] at hr
    split at hr
    · obtain ⟨a, ha, he⟩ := fallbackRecs_src hr
      subst he
      exact ⟨a, Or.inr ha, rfl, rfl, truncSynopsis_eq a.synopsis⟩
    · obtain ⟨c, hc, he⟩ := get_recommendations_src hr
      subst he
      exact ⟨c.anime, Or.inl ⟨c.query, hc⟩, rfl, rfl, truncSynopsis_eq c.anime.synopsis⟩
  · intro s hs
    obtain ⟨a, ha, he⟩ := routeSearch_src hs
    subst he
    exact ⟨a, ha, rfl, truncSynopsis_eq a.synopsis⟩
  · intro s hs
    obtain ⟨a, ha, he⟩ := routeTrending_src hs
    subst he
    exact ⟨a, ha, rfl, truncSynopsis_eq a.synopsis⟩

/-- C9 amended witness: the formatted `candX` of the search route, related
back to its source item in the upstream search response. -/
theorem synopsis_ellipsis_witness :
    ∃ a ∈ catW.search "best Action anime" (min (min 10 25) 25),
      mkSItem candX = mkSItem a ∧
      (mkSItem candX).synopsis =
        (if a.synopsis = "" then "" else takeStr a.synopsis 200 ++ "...") :=
  (synopsis_ellipsis catW [1, 2] 10 "best Action anime" 10 10).2.1 (mkSItem candX) (by decide)

/-- C9 counterexample: `candX`'s synopsis has 12 characters, yet the
returned item carries it with an appended ellipsis — not what the claim
(ellipsis only when longer than 200 characters) prescribes. -/
theorem synopsis_ellipsis_violated :
    ∃ s ∈ routeSearch catW "best Action anime" 10,
      s.synopsis ≠ truncSynopsisSpec candX.synopsis ∧
        s.synopsis = candX.synopsis ++ "..." := by
  refine ⟨mkSItem candX, by decide, by decide, by decide⟩

/-- C10: the `try`/`except` of `is_nsfw_content` maps every internal
exception (a `None` rating, genre name or title hitting `.lower()`) to
`False`, classifying the uninspectable item as safe. -/
theorem nsfw_error_returns_false :
    ∀ (la : LooseAnime) (e : Unit),
      is_nsfw_checked la = .error e → is_nsfw_loose la = false := by
  intro la e h
  unfold is_nsfw_loose
  rw [h]

/-- C10 witness: a `None` rating raises before any check runs, so an item
titled "Hentai Heaven" is classified safe. -/
theorem nsfw_error_returns_false_witness :
    is_nsfw_loose ⟨PyStrVal.pyNone, [], PyStrVal.str "Hentai Heaven"⟩ = false :=
  nsfw_error_returns_false ⟨PyStrVal.pyNone, [], PyStrVal.str "Hentai Heaven"⟩ () rfl

end AnimeRec
